import Mathlib

/-!
Shallow embedding of the TCA core (src/python/tca/core.py).

Modelling conventions:
- Python floats (prices, fees, pov, returned averages) are modelled as
  rationals; Python ints (quantities) as integers.
- Raised exceptions are modelled as Except.error values of type TCAError
  (ValueError on quantity validation becomes invalidQuantity,
  ZeroDivisionError becomes divisionByZero).
- The generator vwap_cr is stateful code; it is embedded as explicit state
  passing: VwapState holds its local variables wgt_px and total_qty, and
  vwap_cr_feed is one resumption of its loop body (receive a price and a
  quantity, update the sums, return the running vwap or a division error).
- The drivers vwap and pwp never reach that state machine: both prime the
  generator with next(vcr()) (lines 120 and 148), calling the generator
  object vcr as a function, which raises TypeError on every call before
  any trade is consumed (and the feed calls vcr.send(p, q) at lines 124
  and 156 pass two arguments to send, a second TypeError). The embedded
  vwap and pwp therefore return the typeError value unconditionally,
  while vwapLoop and pwpLoop give names to the trade loops the drivers
  were intended to run, so that statements about the intended consumption
  semantics can be made alongside the actual crash.
-/

/-- Errors raised by the TCA core: ValueError on quantity validation,
ZeroDivisionError from the unguarded divisions, and the TypeError raised
by the broken generator protocol in the vwap and pwp drivers. -/
inductive TCAError where
  | invalidQuantity
  | divisionByZero
  | typeError
deriving DecidableEq, Repr

/-- Side enum, value represents sign convention (BUY = 1, SELL = -1). -/
inductive Side where
  | BUY
  | SELL
deriving DecidableEq, Repr

/-- Integer value of the Side enum member, as used in arithmetic. -/
def Side.sign : Side → ℤ
  | .BUY => 1
  | .SELL => -1

/-- Record for storing market activity implementation shortfall. -/
structure ImplementationShortfall where
  trading_cost : ℚ
  opportunity_cost : ℚ
  fees : ℚ
deriving DecidableEq, Repr

/-- Embedding of implementation_shortfall: validates the filled quantity,
then returns the shortfall decomposition record. -/
def implementation_shortfall (px_arrival px_final px_exec_avg : ℚ)
    (qty_filled qty_order : ℤ) (fees : ℚ) :
    Except TCAError ImplementationShortfall :=
  if qty_filled > qty_order ∨ qty_filled < 0 then
    .error .invalidQuantity
  else
    .ok { trading_cost := (qty_filled : ℚ) * (px_exec_avg - px_arrival)
          opportunity_cost := ((qty_order - qty_filled : ℤ) : ℚ) * (px_final - px_arrival)
          fees := fees }

/-- Embedding of trading_cost: the source multiplies by the literal 10e4,
which is 100000. -/
def trading_cost (px_benchmark px_exec_avg : ℚ) (side : Side) : ℚ :=
  (side.sign : ℚ) * ((px_exec_avg - px_benchmark) / px_benchmark) * 10e4

/-- Embedding of trading_pnl. -/
def trading_pnl (px_benchmark px_exec_avg : ℚ) (side : Side) : ℚ :=
  -1 * trading_cost px_benchmark px_exec_avg side

/-- State of the vwap_cr generator: its local variables wgt_px and
total_qty. -/
structure VwapState where
  wgt_px : ℚ
  total_qty : ℤ
deriving DecidableEq, Repr

/-- One resumption of the vwap_cr loop body: wgt_px += px * qty,
total_qty += qty, vwap = wgt_px / total_qty. The division raises
ZeroDivisionError when total_qty is zero. -/
def vwap_cr_feed (s : VwapState) (px : ℚ) (qty : ℤ) :
    Except TCAError (VwapState × ℚ) :=
  let wgt := s.wgt_px + px * (qty : ℚ)
  let tot := s.total_qty + qty
  if tot = 0 then .error .divisionByZero
  else .ok (⟨wgt, tot⟩, wgt / (tot : ℚ))

/-- Priming step shared by the vwap and pwp drivers: next(vcr()) calls the
generator object vcr as a function, and a generator object is not
callable, so the step raises TypeError on every call, whatever the trade
data. -/
def prime_vwap_cr : Except TCAError Unit := .error .typeError

/-- Trade loop the vwap driver intends to run: feed each (price, quantity)
pair into the accumulator, remembering the last returned vwap (initially
none). The source never reaches this loop (priming raises first, and its
feed line vcr.send(p, q) passes two arguments to send, which would raise
TypeError as well); the loop here models the intended single-pair feeds
so that the intended semantics can be stated next to the actual crash. -/
def vwapLoop (s : VwapState) (vwp : Option ℚ) :
    List (ℚ × ℤ) → Except TCAError (Option ℚ)
  | [] => .ok vwp
  | (p, q) :: rest =>
      match vwap_cr_feed s p q with
      | .error e => .error e
      | .ok (s2, v) => vwapLoop s2 (some v) rest

/-- Embedding of vwap: the priming call next(vcr()) raises TypeError
before the trade loop runs, on every input; the loop that follows it in
the source is dead code. -/
def vwap (px : List ℚ) (qty : List ℤ) : Except TCAError (Option ℚ) :=
  match prime_vwap_cr with
  | .error e => .error e
  | .ok _ => vwapLoop ⟨0, 0⟩ none (px.zip qty)

/-- Trade loop the pwp driver intends to run: while the remaining needed
volume is positive, clip the next trade quantity to it and feed the
accumulator. As with vwapLoop, the source never reaches this loop. -/
def pwpLoop : ℤ → VwapState → Option ℚ → List (ℚ × ℤ) →
    Except TCAError (Option ℚ)
  | _, _, vwp, [] => .ok vwp
  | pwp_qty, s, vwp, (p, q) :: rest =>
      if pwp_qty ≤ 0 then .ok vwp
      else
        match vwap_cr_feed s p (min pwp_qty q) with
        | .error e => .error e
        | .ok (s2, v) => pwpLoop (pwp_qty - min pwp_qty q) s2 (some v) rest

/-- Embedding of pwp: the needed volume ceil of qty_order / pov is
computed first, then the priming call next(vcr()) raises TypeError before
the clipped consumption loop runs, on every input. (With pov = 0 the
Python ceil itself would raise ZeroDivisionError before priming; no claim
touches that case, and the total Lean division makes the ceil well
defined there.) -/
def pwp (qty_order : ℤ) (pov : ℚ) (px_trade : List ℚ) (qty_trade : List ℤ) :
    Except TCAError (Option ℚ) :=
  let pwp_qty := ⌈(qty_order : ℚ) / pov⌉
  match prime_vwap_cr with
  | .error e => .error e
  | .ok _ => pwpLoop pwp_qty ⟨0, 0⟩ none (px_trade.zip qty_trade)

/-- Outperform test of rpm: strictly below the trade price for a buy,
strictly above it for a sell. -/
def outperforms (px_exec_avg : ℚ) (side : Side) (p : ℚ) : Bool :=
  match side with
  | .BUY => px_exec_avg < p
  | .SELL => px_exec_avg > p

/-- Accumulated (qty_outperform, qty_total) of the rpm loop. -/
def rpmCounts (px_exec_avg : ℚ) (side : Side) : List (ℚ × ℤ) → ℤ × ℤ
  | [] => (0, 0)
  | (p, q) :: rest =>
      let r := rpmCounts px_exec_avg side rest
      ((if outperforms px_exec_avg side p then q else 0) + r.1, q + r.2)

/-- Embedding of rpm: counts outperforming and total quantity over
zip px_trade qty_trade, then returns
0.5 * (1 + qty_outperform / qty_total - qty_underperform / qty_total),
raising ZeroDivisionError when qty_total is zero. -/
def rpm (px_exec_avg : ℚ) (side : Side) (px_trade : List ℚ)
    (qty_trade : List ℤ) : Except TCAError ℚ :=
  let c := rpmCounts px_exec_avg side (px_trade.zip qty_trade)
  let qty_outperform := c.1
  let qty_total := c.2
  if qty_total = 0 then .error .divisionByZero
  else
    let qty_underperform := qty_total - qty_outperform
    .ok (0.5 * (1 + (qty_outperform : ℚ) / (qty_total : ℚ)
      - (qty_underperform : ℚ) / (qty_total : ℚ)))

/-- Total quantity of a list of (price, quantity) trades. -/
def qtySum : List (ℚ × ℤ) → ℤ
  | [] => 0
  | pq :: rest => pq.2 + qtySum rest

/-- Specification-side value for the refinement claim about pwp: the
price-quantity weight of the first n shares of a trade tape, consuming
trades in order and clipping the last consumed trade to the remaining
needed volume. -/
def firstSharesWeight : ℤ → List (ℚ × ℤ) → ℚ
  | _, [] => 0
  | n, (p, q) :: rest =>
      p * ((min n q : ℤ) : ℚ) + firstSharesWeight (n - min n q) rest

/-- Specification-side value: the VWAP of exactly the first n shares of a
trade tape. -/
def firstSharesVwap (n : ℤ) (trades : List (ℚ × ℤ)) : ℚ :=
  firstSharesWeight n trades / (n : ℚ)

/-- Total quantity counted by the rpm loop equals the quantity sum of
the trade tape. -/
lemma rpmCounts_snd (e : ℚ) (s : Side) (l : List (ℚ × ℤ)) :
    (rpmCounts e s l).2 = qtySum l := by
  induction l with
  | nil => rfl
  | cons pq rest ih =>
    obtain ⟨p, q⟩ := pq
    simp [rpmCounts, qtySum, ih]

/-- With nonzero total quantity, the rpm formula collapses to the
outperformed-quantity fraction, because underperform is defined as the
complement of outperform. -/
lemma rpm_eq_outperform_frac (e : ℚ) (s : Side) (px : List ℚ)
    (qty : List ℤ) (h : qtySum (px.zip qty) ≠ 0) :
    rpm e s px qty =
      .ok (((rpmCounts e s (px.zip qty)).1 : ℚ) /
        (qtySum (px.zip qty) : ℚ)) := by
  have ht : (qtySum (px.zip qty) : ℚ) ≠ 0 := Int.cast_ne_zero.mpr h
  unfold rpm
  simp only [rpmCounts_snd, if_neg h]
  congr 1
  field_simp
  ring

/-- When every trade price equals the execution price, no trade
outperforms on either side. -/
lemma rpmCounts_fst_tie (e : ℚ) (s : Side) (l : List (ℚ × ℤ))
    (h : ∀ pq ∈ l, pq.1 = e) : (rpmCounts e s l).1 = 0 := by
  induction l with
  | nil => rfl
  | cons pq rest ih =>
    obtain ⟨p, q⟩ := pq
    have hp : p = e := h (p, q) (List.mem_cons_self _ _)
    have hout : outperforms e s p = false := by
      subst hp
      cases s <;> simp [outperforms]
    simp only [rpmCounts, hout]
    simp [ih fun pq hpq => h pq (List.mem_cons_of_mem _ hpq)]

/-- When no trade price equals the execution price, every unit of traded
quantity is counted as outperform on exactly one of the two sides. -/
lemma rpmCounts_fst_no_tie (e : ℚ) (l : List (ℚ × ℤ))
    (h : ∀ pq ∈ l, pq.1 ≠ e) :
    (rpmCounts e Side.BUY l).1 + (rpmCounts e Side.SELL l).1 = qtySum l := by
  induction l with
  | nil => rfl
  | cons pq rest ih =>
    obtain ⟨p, q⟩ := pq
    have hp : p ≠ e := h (p, q) (List.mem_cons_self _ _)
    have ih2 := ih fun pq hpq => h pq (List.mem_cons_of_mem _ hpq)
    rcases lt_or_gt_of_ne hp.symm with hlt | hgt
    · have hb : outperforms e Side.BUY p = true := by
        simp [outperforms, hlt]
      have hs : outperforms e Side.SELL p = false := by
        simp [outperforms]
        exact le_of_lt hlt
      simp only [rpmCounts, hb, hs, qtySum]
      simp
      omega
    · have hb : outperforms e Side.BUY p = false := by
        simp [outperforms]
        exact le_of_lt hgt
      have hs : outperforms e Side.SELL p = true := by
        simp [outperforms, hgt]
      simp only [rpmCounts, hb, hs, qtySum]
      simp
      omega

/-- When the remaining needed volume is not positive, the pwp loop stops
immediately and returns the running vwap. -/
lemma pwpLoop_nonpos (n : ℤ) (s : VwapState) (vwp : Option ℚ)
    (l : List (ℚ × ℤ)) (h : n ≤ 0) : pwpLoop n s vwp l = .ok vwp := by
  cases l with
  | nil => rfl
  | cons pq rest =>
    obtain ⟨p, q⟩ := pq
    simp [pwpLoop, h]

/-- Over non-negative trade quantities, the first zero shares weigh
nothing. -/
lemma firstSharesWeight_zero (l : List (ℚ × ℤ))
    (h : ∀ pq ∈ l, 0 ≤ pq.2) : firstSharesWeight 0 l = 0 := by
  induction l with
  | nil => rfl
  | cons pq rest ih =>
    obtain ⟨p, q⟩ := pq
    have hq : 0 ≤ q := h (p, q) (List.mem_cons_self _ _)
    have hmin : min (0 : ℤ) q = 0 := min_eq_left hq
    simp only [firstSharesWeight, hmin]
    simp [ih fun pq hpq => h pq (List.mem_cons_of_mem _ hpq)]

/-- Main invariant of the pwp loop: starting from a non-negative
accumulated quantity, a positive needed volume that the remaining tape
(all quantities positive) can satisfy is consumed exactly, and the loop
returns the accumulated weighted average over the consumed shares. -/
lemma pwpLoop_full (l : List (ℚ × ℤ)) : ∀ (n : ℤ) (s : VwapState)
    (vwp : Option ℚ), 0 < n → 0 ≤ s.total_qty →
    (∀ pq ∈ l, 0 < pq.2) → n ≤ qtySum l →
    pwpLoop n s vwp l =
      .ok (some ((s.wgt_px + firstSharesWeight n l) /
        ((s.total_qty : ℚ) + (n : ℚ)))) := by
  induction l with
  | nil =>
    intro n s vwp hn _ _ hle
    simp only [qtySum] at hle
    omega
  | cons pq rest ih =>
    obtain ⟨p, q⟩ := pq
    intro n s vwp hn hs hpos hle
    have hq : 0 < q := hpos (p, q) (List.mem_cons_self _ _)
    have hmin : 0 < min n q := lt_min hn hq
    have htot : s.total_qty + min n q ≠ 0 := by omega
    rw [pwpLoop, if_neg (not_le.mpr hn)]
    rw [vwap_cr_feed]
    simp only [if_neg htot]
    by_cases hnq : n ≤ q
    · have hminn : min n q = n := min_eq_left hnq
      rw [hminn]
      rw [sub_self, pwpLoop_nonpos _ _ _ _ le_rfl]
      have hrest0 : firstSharesWeight 0 rest = 0 :=
        firstSharesWeight_zero rest fun pq hpq =>
          le_of_lt (hpos pq (List.mem_cons_of_mem _ hpq))
      simp only [firstSharesWeight, hminn, sub_self, hrest0]
      push_cast
      ring_nf
    · have hminq : min n q = q := min_eq_right (le_of_not_le hnq)
      rw [hminq]
      have hn2 : 0 < n - q := by omega
      have hle2 : n - q ≤ qtySum rest := by
        simp only [qtySum] at hle
        omega
      rw [ih (n - q) ⟨s.wgt_px + p * (q : ℚ), s.total_qty + q⟩ _ hn2
        (by simp; omega) (fun pq hpq => hpos pq (List.mem_cons_of_mem _ hpq))
        hle2]
      simp only [firstSharesWeight, hminq]
      push_cast
      ring_nf

/-- C1: the failing input for the basis-point scale. The claim states
trading_cost(100, 101, BUY) should be the relative difference 0.01 in
basis points, 100; the source multiplies by 10e4 = 100000 and returns
1000 instead. -/
theorem trading_cost_scale_failing_input :
    trading_cost 100 101 Side.BUY = 1000 := by
  norm_num [trading_cost, Side.sign]

/-- C2 counterexample: at execution price 10 against a single
contemporaneous trade at price 10 with quantity 100 (a non-empty full tie
with positive total quantity), rpm returns 0 and not 0.5: ties land in the
underperform bucket through the complement subtraction. -/
theorem rpm_full_tie_counterexample :
    rpm 10 Side.BUY [10] [100] = .ok 0 ∧
      rpm 10 Side.BUY [10] [100] ≠ .ok 0.5 := by
  constructor
  · norm_num [rpm, rpmCounts, outperforms, List.zip]
  · norm_num [rpm, rpmCounts, outperforms, List.zip]

/-- C2 (amended): for every side and every non-empty contemporaneous
trade tape with positive total quantity in which every trade price equals
the execution price, rpm returns exactly 0. -/
theorem rpm_full_tie_returns_zero (e : ℚ) (s : Side) (px : List ℚ)
    (qty : List ℤ) (_hne : px.zip qty ≠ [])
    (htot : 0 < qtySum (px.zip qty))
    (htie : ∀ pq ∈ px.zip qty, pq.1 = e) :
    rpm e s px qty = .ok 0 := by
  rw [rpm_eq_outperform_frac e s px qty (by omega)]
  rw [rpmCounts_fst_tie e s _ htie]
  norm_num

/-- C2 witness: the amended theorem applied to a sell order tied with two
trades at its execution price. -/
theorem rpm_full_tie_returns_zero_witness :
    ([(10 : ℚ), 10].zip [(100 : ℤ), 50] ≠ [] ∧
      0 < qtySum ([(10 : ℚ), 10].zip [(100 : ℤ), 50]) ∧
      (∀ pq ∈ [(10 : ℚ), 10].zip [(100 : ℤ), 50], pq.1 = 10)) ∧
      rpm 10 Side.SELL [10, 10] [100, 50] = .ok 0 :=
  ⟨⟨by decide, by decide, by decide⟩,
    rpm_full_tie_returns_zero 10 Side.SELL [10, 10] [100, 50]
      (by decide) (by decide) (by decide)⟩

/-- C3: at qty_order 10, pov 1, against a single trade of 5 shares at
price 10, the needed volume 10 exceeds the total available quantity 5,
yet pwp never produces an undefined-value result: the call raises
TypeError at the broken priming call, and even the consumption loop it
intended to run falls through on exhausted liquidity and returns the
numeric partial vwap 10. -/
theorem pwp_insufficient_liquidity_failing_input :
    pwp 10 1 [10] [5] = .error .typeError ∧
      pwpLoop ⌈(10 : ℚ) / 1⌉ ⟨0, 0⟩ none [((10 : ℚ), (5 : ℤ))] =
        .ok (some 10) := by
  refine ⟨rfl, ?_⟩
  norm_num [pwpLoop, vwap_cr_feed]

/-- C4: with a valid filled quantity, implementation_shortfall returns the
record with trading_cost qty_filled * (px_exec_avg - px_arrival),
opportunity_cost (qty_order - qty_filled) * (px_final - px_arrival), and
fees unchanged. -/
theorem implementation_shortfall_formulas (px_arrival px_final px_exec_avg : ℚ)
    (qty_filled qty_order : ℤ) (fees : ℚ)
    (h0 : 0 ≤ qty_filled) (h1 : qty_filled ≤ qty_order) :
    implementation_shortfall px_arrival px_final px_exec_avg
        qty_filled qty_order fees =
      .ok ⟨(qty_filled : ℚ) * (px_exec_avg - px_arrival),
        ((qty_order : ℚ) - (qty_filled : ℚ)) * (px_final - px_arrival),
        fees⟩ := by
  unfold implementation_shortfall
  rw [if_neg (by omega)]
  have hc : ((qty_order - qty_filled : ℤ) : ℚ) =
      (qty_order : ℚ) - (qty_filled : ℚ) := by push_cast; ring
  rw [hc]

/-- C4 witness: the concrete scenario of the claim, evaluating to
trading_cost 80, opportunity_cost 40, fees 5. -/
theorem implementation_shortfall_formulas_witness :
    (0 : ℤ) ≤ 80 ∧ (80 : ℤ) ≤ 100 ∧
      implementation_shortfall 100 102 101 80 100 5 = .ok ⟨80, 40, 5⟩ := by
  refine ⟨by norm_num, by norm_num, ?_⟩
  rw [implementation_shortfall_formulas 100 102 101 80 100 5
    (by norm_num) (by norm_num)]
  norm_num

/-- C5: implementation_shortfall returns the InvalidQuantity error exactly
when qty_filled > qty_order or qty_filled < 0, for all prices and fees;
on failure no record is produced. -/
theorem implementation_shortfall_error_iff (px_arrival px_final px_exec_avg : ℚ)
    (qty_filled qty_order : ℤ) (fees : ℚ) :
    implementation_shortfall px_arrival px_final px_exec_avg
        qty_filled qty_order fees = .error .invalidQuantity ↔
      qty_filled > qty_order ∨ qty_filled < 0 := by
  unfold implementation_shortfall
  split <;> simp_all

/-- C6: vwap on empty price and quantity sequences does not return the
undefined value none: it raises TypeError at the broken priming call
next(vcr()) before its loop runs. Its intended loop over no trades would
indeed return none, never an error and never the number 0. -/
theorem vwap_empty_raises_type_error :
    vwap [] [] = .error .typeError ∧
      vwapLoop ⟨0, 0⟩ none [] = .ok none :=
  ⟨rfl, rfl⟩

/-- C7 counterexample: at qty_order 5 and pov 1 over the tape
(price 10, quantity 5), (price 20, quantity 10), whose total quantity 15
is at least 5, pwp raises TypeError at the broken priming call and does
not equal the VWAP of the first 5 shares; moreover the consumption loop
it intended to run, given the tape (10, quantity 0), (20, quantity 10)
of total quantity 10 ≥ 5, raises a division error on the zero-quantity
leading trade while the VWAP of the first 5 shares there is the
well-defined value 20. -/
theorem pwp_pov_one_counterexample :
    pwp 5 1 [10, 20] [5, 10] = .error .typeError ∧
      pwp 5 1 [10, 20] [5, 10] ≠
        .ok (some (firstSharesVwap 5 ([(10 : ℚ), 20].zip [(5 : ℤ), 10]))) ∧
      pwpLoop ⌈(5 : ℚ) / 1⌉ ⟨0, 0⟩ none [((10 : ℚ), (0 : ℤ)), (20, 10)] =
        .error .divisionByZero ∧
      firstSharesVwap 5 [((10 : ℚ), (0 : ℤ)), (20, 10)] = 20 := by
  refine ⟨rfl, by simp [pwp, prime_vwap_cr], ?_, ?_⟩
  · norm_num [pwpLoop, vwap_cr_feed]
  · norm_num [firstSharesVwap, firstSharesWeight]

/-- C7 (amended): pwp itself raises TypeError on every call, so at pov 1
it never returns a VWAP; the clipped consumption loop it intends to run,
with needed volume ceil of qty_order / 1, for every qty_order > 0 and
every trade tape with all quantities strictly positive whose total
quantity is at least qty_order, equals the VWAP of exactly the first
qty_order shares of the tape in order, the last consumed trade clipped to
the remaining needed volume and no later trade consumed. -/
theorem pwp_pov_one_loop_eq_first_shares_vwap (qty_order : ℤ) (px : List ℚ)
    (qty : List ℤ) (hq : 0 < qty_order)
    (hpos : ∀ pq ∈ px.zip qty, 0 < pq.2)
    (hle : qty_order ≤ qtySum (px.zip qty)) :
    pwp qty_order 1 px qty = .error .typeError ∧
      pwpLoop ⌈(qty_order : ℚ) / 1⌉ ⟨0, 0⟩ none (px.zip qty) =
        .ok (some (firstSharesVwap qty_order (px.zip qty))) := by
  refine ⟨rfl, ?_⟩
  rw [div_one, Int.ceil_intCast]
  rw [pwpLoop_full (px.zip qty) qty_order ⟨0, 0⟩ none hq le_rfl hpos hle]
  unfold firstSharesVwap
  norm_num

/-- C7 witness: the amended theorem applied to order quantity 5 against
the tape (10, 3 shares), (20, 10 shares): pwp raises TypeError, and the
intended loop consumes 3 shares at 10 and 2 at 20, with VWAP 14. -/
theorem pwp_pov_one_loop_eq_first_shares_vwap_witness :
    ((0 : ℤ) < 5 ∧ (∀ pq ∈ [(10 : ℚ), 20].zip [(3 : ℤ), 10], 0 < pq.2) ∧
      (5 : ℤ) ≤ qtySum ([(10 : ℚ), 20].zip [(3 : ℤ), 10])) ∧
      pwp 5 1 [10, 20] [3, 10] = .error .typeError ∧
      pwpLoop ⌈((5 : ℤ) : ℚ) / 1⌉ ⟨0, 0⟩ none
        ([(10 : ℚ), 20].zip [(3 : ℤ), 10]) = .ok (some 14) := by
  refine ⟨⟨by decide, by decide, by decide⟩, ?_⟩
  have h := pwp_pov_one_loop_eq_first_shares_vwap 5 [10, 20] [3, 10]
    (by decide) (by decide) (by decide)
  refine ⟨h.1, ?_⟩
  rw [h.2]
  norm_num [firstSharesVwap, firstSharesWeight, List.zip]

/-- C8: trading_pnl is the additive inverse of trading_cost at every
nonzero benchmark price, every execution price and every side. -/
theorem trading_pnl_neg_trading_cost (px_benchmark px_exec_avg : ℚ)
    (side : Side) (_hb : px_benchmark ≠ 0) :
    trading_pnl px_benchmark px_exec_avg side =
      -trading_cost px_benchmark px_exec_avg side := by
  unfold trading_pnl
  ring

/-- C8 witness: the inverse relation at benchmark 100, execution 101,
side BUY. -/
theorem trading_pnl_neg_trading_cost_witness :
    (100 : ℚ) ≠ 0 ∧
      trading_pnl 100 101 Side.BUY = -trading_cost 100 101 Side.BUY :=
  ⟨by norm_num,
    trading_pnl_neg_trading_cost 100 101 Side.BUY (by norm_num)⟩

/-- C9 counterexample: on the single trade at price 10 with quantity 0,
vwap raises TypeError at the broken priming call, not a division error:
no feed ever executes. -/
theorem vwap_all_zero_qty_counterexample :
    vwap [10] [0] = .error .typeError ∧
      vwap [10] [0] ≠ .error .divisionByZero := by
  refine ⟨rfl, ?_⟩
  simp [vwap, prime_vwap_cr]

/-- C9 (amended): on non-empty equal-length sequences whose quantities
are all zero, vwap raises TypeError at the broken priming call before any
feed, so it never returns the undefined value none; the feed loop it
intended to run would raise the division error on its very first feed
(total quantity stays zero), there being no explicit zero-quantity
check. -/
theorem vwap_all_zero_qty_errors (px : List ℚ) (qty : List ℤ)
    (hne : px ≠ []) (hlen : px.length = qty.length)
    (hz : ∀ q ∈ qty, q = 0) :
    vwap px qty = .error .typeError ∧
      vwapLoop ⟨0, 0⟩ none (px.zip qty) = .error .divisionByZero := by
  refine ⟨rfl, ?_⟩
  match px, qty with
  | [], _ => exact absurd rfl hne
  | p :: ps, [] => simp at hlen
  | p :: ps, q :: qs =>
    have hq : q = 0 := hz q (List.mem_cons_self _ _)
    subst hq
    simp [List.zip, vwapLoop, vwap_cr_feed]

/-- C9 witness: a single trade at price 10 with quantity 0, fed to both
the actual driver and the intended loop. -/
theorem vwap_all_zero_qty_errors_witness :
    (([(10 : ℚ)] : List ℚ) ≠ [] ∧
      ([(10 : ℚ)] : List ℚ).length = ([(0 : ℤ)] : List ℤ).length ∧
      ∀ q ∈ ([(0 : ℤ)] : List ℤ), q = 0) ∧
      vwap [10] [0] = .error .typeError ∧
      vwapLoop ⟨0, 0⟩ none ([(10 : ℚ)].zip [(0 : ℤ)]) =
        .error .divisionByZero :=
  ⟨⟨by decide, rfl, by decide⟩,
    vwap_all_zero_qty_errors [10] [0] (by decide) rfl (by decide)⟩

/-- C10: with positive total quantity and no trade price equal to the
execution price, the buy-side and sell-side rpm scores are both defined,
each equals its outperformed-quantity fraction, and they sum to 1. -/
theorem rpm_sides_complementary (e : ℚ) (px : List ℚ) (qty : List ℤ)
    (htot : 0 < qtySum (px.zip qty))
    (hnotie : ∀ pq ∈ px.zip qty, pq.1 ≠ e) :
    ∃ rb rs, rpm e Side.BUY px qty = .ok rb ∧
      rpm e Side.SELL px qty = .ok rs ∧ rb + rs = 1 ∧
      rb = ((rpmCounts e Side.BUY (px.zip qty)).1 : ℚ) /
        (qtySum (px.zip qty) : ℚ) ∧
      rs = ((rpmCounts e Side.SELL (px.zip qty)).1 : ℚ) /
        (qtySum (px.zip qty) : ℚ) := by
  have h0 : qtySum (px.zip qty) ≠ 0 := by omega
  have ht : (qtySum (px.zip qty) : ℚ) ≠ 0 := Int.cast_ne_zero.mpr h0
  refine ⟨_, _, rpm_eq_outperform_frac e Side.BUY px qty h0,
    rpm_eq_outperform_frac e Side.SELL px qty h0, ?_, rfl, rfl⟩
  rw [div_add_div_same, ← Int.cast_add, rpmCounts_fst_no_tie e _ hnotie]
  exact div_self ht

/-- C10 witness: execution price 50 against trades at 51 and 49 of 100
shares each; the buy score and the sell score are each one half and sum
to 1. -/
theorem rpm_sides_complementary_witness :
    ((0 : ℤ) < qtySum ([(51 : ℚ), 49].zip [(100 : ℤ), 100]) ∧
      (∀ pq ∈ [(51 : ℚ), 49].zip [(100 : ℤ), 100], pq.1 ≠ 50)) ∧
      ∃ rb rs, rpm 50 Side.BUY [51, 49] [100, 100] = .ok rb ∧
        rpm 50 Side.SELL [51, 49] [100, 100] = .ok rs ∧ rb + rs = 1 ∧
        rb = ((rpmCounts 50 Side.BUY
          ([(51 : ℚ), 49].zip [(100 : ℤ), 100])).1 : ℚ) /
          (qtySum ([(51 : ℚ), 49].zip [(100 : ℤ), 100]) : ℚ) ∧
        rs = ((rpmCounts 50 Side.SELL
          ([(51 : ℚ), 49].zip [(100 : ℤ), 100])).1 : ℚ) /
          (qtySum ([(51 : ℚ), 49].zip [(100 : ℤ), 100]) : ℚ) :=
  ⟨⟨by decide, by decide⟩,
    rpm_sides_complementary 50 [51, 49] [100, 100] (by decide) (by decide)⟩
